import Mathlib

/-!
Verification development for the polling web application in `server.js`.

The file embeds the data model, the storage-backend operations and the four
fastify route handlers (`GET /`, `POST /`, `GET /logs`, `POST /reset`) as pure
Lean functions, and proves the consistency and error-handling properties of the
tally service.

The storage backend (the database helper selected by `data.database` in
`data.json`) is part of the repository but its implementation is not in the
sources available here, so its four operations are modelled from the spec; the
doc comments on those definitions say so explicitly.  All other definitions are
direct translations of `server.js`.
-/

namespace Poll

/-- An `Option` row of the storage backend: a votable choice (`language` is its
name, matching the field name the handlers project with `choice.language`) and
its accumulated pick count (`choice.picks`). -/
structure Opt where
  language : String
  picks : Nat
  deriving Repr, DecidableEq

/-- A `LogEntry`: an immutable record of a single vote event (option name and
timestamp). -/
structure LogEntry where
  language : String
  time : Nat
  deriving Repr, DecidableEq

/-- The state held by the storage backend: the option rows and the
chronological vote log (the "history"). -/
structure DBState where
  options : List Opt
  history : List LogEntry
  deriving Repr, DecidableEq

/-- JavaScript truthiness of an optional string value: `undefined`/missing and
the empty string are falsy, every other string is truthy. -/
def strTruthy : Option String → Bool
  | none => false
  | some s => !(s == "")

/-- Modelled from the spec: `getOptions` of the database helper (not among the
available sources).  "listOptions() -> sequence of Option"; no side effects,
returns options in whatever order storage provides. -/
def getOptions (s : DBState) : List Opt :=
  s.options

/-- Modelled from the spec: `getLogs` of the database helper (not among the
available sources).  "getHistory() -> sequence of LogEntry"; read-only. -/
def getLogs (s : DBState) : List LogEntry :=
  s.history

/-- Modelled from the spec: `processVote` of the database helper (not among the
available sources).  "atomically increments the matching Option's picks and
appends a LogEntry"; when no Option matches, the observed contract tolerates a
silent no-match, modelled as a no-op (no increment, no log append).  Returns
the refreshed option list together with the new state. -/
def processVote (s : DBState) (lang : String) (t : Nat) : DBState × List Opt :=
  if s.options.any (fun o => o.language == lang) then
    let opts := s.options.map
      (fun o => if o.language == lang then { o with picks := o.picks + 1 } else o)
    ({ options := opts, history := s.history ++ [⟨lang, t⟩] }, opts)
  else
    (s, s.options)

/-- Modelled from the spec: `clearHistory` of the database helper (not among
the available sources).  "atomically clears all counts and the log, then
returns the now-empty history". -/
def clearHistory (s : DBState) : DBState × List LogEntry :=
  ({ options := s.options.map (fun o => { o with picks := 0 }), history := [] }, [])

/-- A storage call outcome: `avail = true` models the backend answering
normally, `avail = false` models the call returning a falsy result
(`StorageUnavailable`). -/
def dbCall (avail : Bool) (x : α) : Option α :=
  if avail then some x else none

/-- Modelled from the spec: `data.errorMessage` of `data.json` (not among the
available sources) — the single configured generic user-facing error message
substituted for raw storage error details. -/
def errorMessage : String :=
  "There was an error connecting to the database."

/-- Modelled from the spec: `data.setupMessage` of `data.json` (not among the
available sources) — the message shown when the option list is empty. -/
def setupMessage : String :=
  "The database is empty, it needs to be set up."

/-- The string assigned to `params.failed` on a failed reset authorization in
`server.js`. -/
def failedMessage : String :=
  "You entered invalid credentials!"

/-- The `params` object the handlers build and send (raw mode) or render.  A
field of type `Option _` is absent when `none`; `error` distinguishes absent
(`none`), explicitly `null` (`some none`) and an error string
(`some (some msg)`), because `POST /` and `GET /logs` assign `null` on
success while `GET /` leaves the field unset. -/
structure Params where
  seo : Bool := false
  optionNames : Option (List String) := none
  optionCounts : Option (List Nat) := none
  error : Option (Option String) := none
  setup : Option String := none
  results : Bool := false
  failed : Option String := none
  optionHistory : Option (List LogEntry) := none
  deriving Repr, DecidableEq

/-- Result of a handler: the `params` payload and the storage state after the
request. -/
structure HandlerResult where
  params : Params
  state : DBState
  deriving Repr, DecidableEq

/-- Result of the `POST /reset` handler, which additionally sets an HTTP
status code. -/
structure ResetResult where
  params : Params
  state : DBState
  status : Nat
  deriving Repr, DecidableEq

/-- The `GET /` handler of `server.js`: build `params` (seo only in view
mode), fetch the options; on success project the parallel `optionNames` and
`optionCounts` arrays, otherwise set `params.error`; flag `setup` when the
option list is present but empty.  No mutating storage operation. -/
def getHandler (raw : Bool) (avail : Bool) (s : DBState) : HandlerResult :=
  let params0 : Params := if raw then {} else { seo := true }
  let options := dbCall avail (getOptions s)
  let params1 :=
    match options with
    | some opts =>
        { params0 with
          optionNames := some (opts.map (fun choice => choice.language)),
          optionCounts := some (opts.map (fun choice => choice.picks)) }
    | none => { params0 with error := some (some errorMessage) }
  let params2 :=
    match options with
    | some opts =>
        if opts.length < 1 then { params1 with setup := some setupMessage } else params1
    | none => params1
  ⟨params2, s⟩

/-- The `POST /` handler of `server.js`: set `params.results`; when the body's
`language` field is truthy, send the vote to `processVote` and on success
project the parallel arrays; finally `params.error` is `null` when an option
list was produced and the generic error message otherwise.  `lang` is the
body's `language` field (`none` = missing), `avail` models whether
`processVote`'s storage call answers. -/
def postHandler (raw : Bool) (avail : Bool) (lang : Option String) (t : Nat)
    (s : DBState) : HandlerResult :=
  let params0 : Params := { (if raw then {} else { seo := true } : Params) with results := true }
  if strTruthy lang then
    if avail then
      let (s', opts) := processVote s (lang.getD "") t
      ⟨{ params0 with
          optionNames := some (opts.map (fun choice => choice.language)),
          optionCounts := some (opts.map (fun choice => choice.picks)),
          error := some none }, s'⟩
    else
      ⟨{ params0 with error := some (some errorMessage) }, s⟩
  else
    ⟨{ params0 with error := some (some errorMessage) }, s⟩

/-- The `GET /logs` handler of `server.js`: fetch the log history into
`params.optionHistory` and set `params.error` to `null` when it is truthy and
to the generic error message otherwise.  Read-only. -/
def logsHandler (raw : Bool) (avail : Bool) (s : DBState) : HandlerResult :=
  let params0 : Params := if raw then {} else { seo := true }
  let hist := dbCall avail (getLogs s)
  ⟨{ params0 with
      optionHistory := hist,
      error := if hist.isSome then some none else some (some errorMessage) }, s⟩

/-- The authorization test of the `POST /reset` handler, translated from
`!request.body.key || request.body.key.length < 1 || !process.env.ADMIN_KEY ||
request.body.key !== process.env.ADMIN_KEY`.  `bodyKey` is the request body's
`key` field, `adminKey` the `ADMIN_KEY` environment variable (`none` =
unset). -/
def authFails (bodyKey adminKey : Option String) : Bool :=
  !strTruthy bodyKey || decide ((bodyKey.getD "").length < 1) ||
    !strTruthy adminKey || !(bodyKey.getD "" == adminKey.getD "")

/-- The `POST /reset` handler of `server.js`: when authorization fails, set
`params.failed` and return the (unmodified) log list; otherwise clear the
history into `params.optionHistory` and set `params.error` from its
truthiness.  The status is 401 when `params.failed` is truthy and 200
otherwise.  `availLogs` models the `getLogs` call of the failure branch,
`availClear` the `clearHistory` call of the success branch. -/
def resetHandler (raw : Bool) (availLogs availClear : Bool)
    (bodyKey adminKey : Option String) (s : DBState) : ResetResult :=
  let params0 : Params := if raw then {} else { seo := true }
  if authFails bodyKey adminKey then
    let params1 := { params0 with failed := some failedMessage }
    let params2 := { params1 with optionHistory := dbCall availLogs (getLogs s) }
    ⟨params2, s, if params2.failed.isSome then 401 else 200⟩
  else
    let (s', hist) :=
      if availClear then
        let (s', h) := clearHistory s
        (s', some h)
      else (s, none)
    let params2 :=
      { params0 with
        optionHistory := hist,
        error := if hist.isSome then some none else some (some errorMessage) }
    ⟨params2, s', if params2.failed.isSome then 401 else 200⟩

/-- The tally: the sum of all `picks` across the option rows. -/
def sumPicks (s : DBState) : Nat :=
  (s.options.map (fun o => o.picks)).sum

/-- One `POST /` request, as the vote events of a run: the `raw` query flag,
whether the storage call answers, the body's `language` field and the vote
timestamp. -/
structure VoteReq where
  raw : Bool
  avail : Bool
  lang : Option String
  time : Nat
  deriving Repr, DecidableEq

/-- The storage state after serving a sequence of `POST /` requests. -/
def applyVotes (s : DBState) : List VoteReq → DBState
  | [] => s
  | r :: rs => applyVotes (postHandler r.raw r.avail r.lang r.time s).state rs

theorem incr_map_language (l : List Opt) (lang : String) :
    ((l.map (fun o => if o.language == lang then { o with picks := o.picks + 1 } else o)).map
      (fun o => o.language)) = l.map (fun o => o.language) := by
  rw [List.map_map]
  refine List.map_congr_left (fun o _ => ?_)
  by_cases h : (o.language == lang) = true
  · rw [Function.comp_apply, if_pos h]
  · rw [Function.comp_apply, if_neg h]

theorem incr_map_untouched (l : List Opt) (lang : String)
    (h : ∀ p ∈ l, p.language ≠ lang) :
    l.map (fun o => if o.language == lang then { o with picks := o.picks + 1 } else o) = l := by
  induction l with
  | nil => rfl
  | cons o l ih =>
    have ho : ¬(o.language == lang) = true := by
      simpa using h o (List.mem_cons_self o l)
    simp only [List.map_cons, if_neg ho]
    rw [ih (fun p hp => h p (List.mem_cons_of_mem o hp))]

theorem incr_map_sum (l : List Opt) (lang : String)
    (hnd : (l.map (fun o => o.language)).Nodup)
    (h : l.any (fun o => o.language == lang) = true) :
    ((l.map (fun o => if o.language == lang then { o with picks := o.picks + 1 } else o)).map
      (fun o => o.picks)).sum = (l.map (fun o => o.picks)).sum + 1 := by
  induction l with
  | nil => simp at h
  | cons o l ih =>
    simp only [List.map_cons, List.nodup_cons, List.mem_map] at hnd
    simp only [List.map_cons, List.sum_cons]
    by_cases ho : o.language == lang
    · have hlang : o.language = lang := by simpa using ho
      have huntouched : l.map (fun p => if p.language == lang then
          { p with picks := p.picks + 1 } else p) = l := by
        refine incr_map_untouched l lang (fun p hp hpe => hnd.1 ⟨p, hp, ?_⟩)
        rw [hpe, hlang]
      rw [if_pos ho, huntouched]
      show o.picks + 1 + ((l.map (fun o => o.picks)).sum) =
        o.picks + (l.map (fun o => o.picks)).sum + 1
      omega
    · have htail : l.any (fun p => p.language == lang) = true := by
        simpa [ho] using h
      rw [if_neg ho, ih hnd.2 htail]
      omega

theorem processVote_eq_pos (s : DBState) (lang : String) (t : Nat)
    (h : s.options.any (fun o => o.language == lang) = true) :
    processVote s lang t =
      (⟨s.options.map (fun o => if o.language == lang then
          { o with picks := o.picks + 1 } else o), s.history ++ [⟨lang, t⟩]⟩,
        s.options.map (fun o => if o.language == lang then
          { o with picks := o.picks + 1 } else o)) := by
  simp only [processVote, if_pos h]

theorem processVote_eq_neg (s : DBState) (lang : String) (t : Nat)
    (h : ¬ s.options.any (fun o => o.language == lang) = true) :
    processVote s lang t = (s, s.options) := by
  simp only [processVote, if_neg h]

theorem processVote_names (s : DBState) (lang : String) (t : Nat) :
    (processVote s lang t).1.options.map (fun o => o.language) =
      s.options.map (fun o => o.language) := by
  by_cases h : s.options.any (fun o => o.language == lang)
  · rw [processVote_eq_pos s lang t h]
    exact incr_map_language s.options lang
  · rw [processVote_eq_neg s lang t h]

theorem processVote_consistent (s : DBState) (lang : String) (t : Nat)
    (hnd : (s.options.map (fun o => o.language)).Nodup)
    (hc : sumPicks s = s.history.length) :
    sumPicks (processVote s lang t).1 = (processVote s lang t).1.history.length := by
  by_cases h : s.options.any (fun o => o.language == lang)
  · rw [processVote_eq_pos s lang t h]
    simp only [sumPicks] at hc ⊢
    simp only [List.length_append, List.length_cons, List.length_nil]
    rw [incr_map_sum s.options lang hnd h, hc]
  · rw [processVote_eq_neg s lang t h]
    exact hc

theorem postHandler_state (raw avail : Bool) (lang : Option String) (t : Nat)
    (s : DBState) :
    (postHandler raw avail lang t s).state =
      if strTruthy lang && avail then (processVote s (lang.getD "") t).1 else s := by
  unfold postHandler
  by_cases hl : strTruthy lang <;> by_cases ha : avail <;> simp [hl, ha]

theorem postHandler_state_names (raw avail : Bool) (lang : Option String) (t : Nat)
    (s : DBState) :
    (postHandler raw avail lang t s).state.options.map (fun o => o.language) =
      s.options.map (fun o => o.language) := by
  rw [postHandler_state]
  by_cases h : strTruthy lang && avail
  · rw [if_pos h]; exact processVote_names s (lang.getD "") t
  · rw [if_neg h]

theorem postHandler_consistent (raw avail : Bool) (lang : Option String) (t : Nat)
    (s : DBState)
    (hnd : (s.options.map (fun o => o.language)).Nodup)
    (hc : sumPicks s = s.history.length) :
    sumPicks (postHandler raw avail lang t s).state =
      (postHandler raw avail lang t s).state.history.length := by
  rw [postHandler_state]
  by_cases h : strTruthy lang && avail
  · rw [if_pos h]; exact processVote_consistent s (lang.getD "") t hnd hc
  · rw [if_neg h]; exact hc

theorem string_length_eq_zero (s : String) : s.length = 0 ↔ s = "" := by
  constructor
  · intro h
    cases s with
    | mk data =>
      have hd : data = [] := List.length_eq_zero.mp h
      rw [hd]
  · intro h
    rw [h]
    rfl

theorem authFails_false_iff (bodyKey adminKey : Option String) :
    authFails bodyKey adminKey = false ↔
      ∃ k, k ≠ "" ∧ bodyKey = some k ∧ adminKey = some k := by
  cases bodyKey with
  | none => simp [authFails, strTruthy]
  | some bk =>
    cases adminKey with
    | none => simp [authFails, strTruthy]
    | some ak =>
      constructor
      · intro h
        simp only [authFails, strTruthy, Option.getD_some, Bool.or_eq_false_iff] at h
        obtain ⟨⟨⟨h1, h2⟩, h3⟩, h4⟩ := h
        have hbk : bk ≠ "" := by simpa using h1
        have hbkak : bk = ak := by simpa using h4
        exact ⟨bk, hbk, rfl, by rw [hbkak]⟩
      · rintro ⟨k, hk, hbk, hak⟩
        injection hbk with hbk
        injection hak with hak
        subst hbk
        subst hak
        simp [authFails, strTruthy, hk, string_length_eq_zero]

theorem resetHandler_status (raw availLogs availClear : Bool)
    (bodyKey adminKey : Option String) (s : DBState) :
    (resetHandler raw availLogs availClear bodyKey adminKey s).status =
      if authFails bodyKey adminKey then 401 else 200 := by
  unfold resetHandler
  by_cases h : authFails bodyKey adminKey <;> cases raw <;> simp [h]

/-- C1: after every sequence of `POST /` requests served from a state whose
option names are unique and whose tally already matches its log (as any fresh
all-zero state does), the sum of all pick counts equals the number of
`LogEntry` records in the history — the tally and the log never diverge. -/
theorem tally_matches_log (s : DBState) (reqs : List VoteReq)
    (hnd : (s.options.map (fun o => o.language)).Nodup)
    (hc : sumPicks s = s.history.length) :
    sumPicks (applyVotes s reqs) = (applyVotes s reqs).history.length := by
  induction reqs generalizing s with
  | nil => exact hc
  | cons r rs ih =>
    refine ih (postHandler r.raw r.avail r.lang r.time s).state ?_ ?_
    · rw [postHandler_state_names]
      exact hnd
    · exact postHandler_consistent r.raw r.avail r.lang r.time s hnd hc

theorem tally_matches_log_witness :
    (((⟨[⟨"go", 0⟩, ⟨"rust", 0⟩], []⟩ : DBState).options.map
        (fun o => o.language)).Nodup ∧
      sumPicks ⟨[⟨"go", 0⟩, ⟨"rust", 0⟩], []⟩ =
        (⟨[⟨"go", 0⟩, ⟨"rust", 0⟩], []⟩ : DBState).history.length) ∧
    sumPicks (applyVotes ⟨[⟨"go", 0⟩, ⟨"rust", 0⟩], []⟩
        [⟨true, true, some "go", 0⟩, ⟨true, true, some "go", 1⟩,
          ⟨true, true, some "rust", 2⟩]) =
      (applyVotes ⟨[⟨"go", 0⟩, ⟨"rust", 0⟩], []⟩
        [⟨true, true, some "go", 0⟩, ⟨true, true, some "go", 1⟩,
          ⟨true, true, some "rust", 2⟩]).history.length :=
  ⟨⟨by decide, by decide⟩,
    tally_matches_log ⟨[⟨"go", 0⟩, ⟨"rust", 0⟩], []⟩
      [⟨true, true, some "go", 0⟩, ⟨true, true, some "go", 1⟩,
        ⟨true, true, some "rust", 2⟩] (by decide) (by decide)⟩

/-- C2: a `POST /reset` request is authorized exactly when the body's key and
the configured `ADMIN_KEY` are both present and non-empty and are exactly
equal (String equality, hence case-sensitive); the response status is 200 in
that case and 401 otherwise. -/
theorem reset_authorization (raw availLogs availClear : Bool)
    (bodyKey adminKey : Option String) (s : DBState) :
    ((resetHandler raw availLogs availClear bodyKey adminKey s).status = 200 ↔
      ∃ k, k ≠ "" ∧ bodyKey = some k ∧ adminKey = some k) ∧
    ((resetHandler raw availLogs availClear bodyKey adminKey s).status = 401 ↔
      ¬ ∃ k, k ≠ "" ∧ bodyKey = some k ∧ adminKey = some k) := by
  rw [resetHandler_status]
  rcases Bool.eq_false_or_eq_true (authFails bodyKey adminKey) with ht | hf
  · have hex : ¬ ∃ k, k ≠ "" ∧ bodyKey = some k ∧ adminKey = some k := by
      intro hh
      rw [(authFails_false_iff bodyKey adminKey).mpr hh] at ht
      exact Bool.false_ne_true ht
    rw [ht]
    simp [hex]
  · have hex := (authFails_false_iff bodyKey adminKey).mp hf
    rw [hf]
    simp [hex]

/-- C3: a `POST /reset` request that fails authorization mutates nothing (the
state after the request is the state before, `clearHistory` is never reached)
and the response carries the current unmodified history (whenever the
`getLogs` read answers) together with the failure flag. -/
theorem reset_authfail_no_mutation (raw availLogs availClear : Bool)
    (bodyKey adminKey : Option String) (s : DBState)
    (h : authFails bodyKey adminKey = true) :
    (resetHandler raw availLogs availClear bodyKey adminKey s).state = s ∧
    (resetHandler raw availLogs availClear bodyKey adminKey s).params.failed =
      some failedMessage ∧
    (resetHandler raw availLogs availClear bodyKey adminKey s).params.optionHistory =
      dbCall availLogs s.history := by
  unfold resetHandler
  rw [if_pos h]
  cases raw <;> simp [getLogs]

theorem reset_authfail_no_mutation_witness :
    authFails (some "wrong") (some "secret") = true ∧
    ((resetHandler true true true (some "wrong") (some "secret")
        ⟨[⟨"go", 1⟩], [⟨"go", 0⟩]⟩).state = ⟨[⟨"go", 1⟩], [⟨"go", 0⟩]⟩ ∧
      (resetHandler true true true (some "wrong") (some "secret")
        ⟨[⟨"go", 1⟩], [⟨"go", 0⟩]⟩).params.failed = some failedMessage ∧
      (resetHandler true true true (some "wrong") (some "secret")
        ⟨[⟨"go", 1⟩], [⟨"go", 0⟩]⟩).params.optionHistory =
        dbCall true (⟨[⟨"go", 1⟩], [⟨"go", 0⟩]⟩ : DBState).history) :=
  ⟨by decide,
    reset_authfail_no_mutation true true true (some "wrong") (some "secret")
      ⟨[⟨"go", 1⟩], [⟨"go", 0⟩]⟩ (by decide)⟩

/-- C4: a `POST /reset` request whose key is non-empty and exactly equals the
non-empty configured `ADMIN_KEY` (and whose `clearHistory` storage call
answers) leaves an empty history with every pick count zero, responds with
status 200, and its `optionHistory` is the now-empty history returned by the
clear operation. -/
theorem reset_success_clears (raw availLogs : Bool) (k : String) (s : DBState)
    (hk : k ≠ "") :
    (resetHandler raw availLogs true (some k) (some k) s).state.history = [] ∧
    (∀ o ∈ (resetHandler raw availLogs true (some k) (some k) s).state.options,
      o.picks = 0) ∧
    (resetHandler raw availLogs true (some k) (some k) s).status = 200 ∧
    (resetHandler raw availLogs true (some k) (some k) s).params.optionHistory =
      some [] := by
  have hf : authFails (some k) (some k) = false :=
    (authFails_false_iff (some k) (some k)).mpr ⟨k, hk, rfl, rfl⟩
  unfold resetHandler
  rw [if_neg (by rw [hf]; exact Bool.false_ne_true)]
  cases raw <;> simp [clearHistory]

theorem reset_success_clears_witness :
    ("secret" : String) ≠ "" ∧
    ((resetHandler true true true (some "secret") (some "secret")
        ⟨[⟨"go", 2⟩, ⟨"rust", 1⟩], [⟨"go", 0⟩, ⟨"go", 1⟩, ⟨"rust", 2⟩]⟩).state.history = [] ∧
      (∀ o ∈ (resetHandler true true true (some "secret") (some "secret")
          ⟨[⟨"go", 2⟩, ⟨"rust", 1⟩], [⟨"go", 0⟩, ⟨"go", 1⟩, ⟨"rust", 2⟩]⟩).state.options,
        o.picks = 0) ∧
      (resetHandler true true true (some "secret") (some "secret")
        ⟨[⟨"go", 2⟩, ⟨"rust", 1⟩], [⟨"go", 0⟩, ⟨"go", 1⟩, ⟨"rust", 2⟩]⟩).status = 200 ∧
      (resetHandler true true true (some "secret") (some "secret")
        ⟨[⟨"go", 2⟩, ⟨"rust", 1⟩], [⟨"go", 0⟩, ⟨"go", 1⟩, ⟨"rust", 2⟩]⟩).params.optionHistory =
        some []) :=
  ⟨by decide,
    reset_success_clears true true "secret"
      ⟨[⟨"go", 2⟩, ⟨"rust", 1⟩], [⟨"go", 0⟩, ⟨"go", 1⟩, ⟨"rust", 2⟩]⟩ (by decide)⟩

/-- C5: a `POST /` request whose body has a missing (`none`) or empty
`language` field leaves the storage state — and hence every pick count —
unchanged; `processVote` is never reached, so no option list is produced
either. -/
theorem empty_vote_noop (raw avail : Bool) (lang : Option String) (t : Nat)
    (s : DBState) (h : strTruthy lang = false) :
    (postHandler raw avail lang t s).state = s ∧
    (postHandler raw avail lang t s).state.options = s.options ∧
    (postHandler raw avail lang t s).params.optionNames = none ∧
    (postHandler raw avail lang t s).params.optionCounts = none := by
  unfold postHandler
  rw [if_neg (by rw [h]; exact Bool.false_ne_true)]
  cases raw <;> simp

theorem empty_vote_noop_witness :
    strTruthy (some "") = false ∧
    ((postHandler true true (some "") 0 ⟨[⟨"go", 3⟩], [⟨"go", 0⟩]⟩).state =
        ⟨[⟨"go", 3⟩], [⟨"go", 0⟩]⟩ ∧
      (postHandler true true (some "") 0 ⟨[⟨"go", 3⟩], [⟨"go", 0⟩]⟩).state.options =
        (⟨[⟨"go", 3⟩], [⟨"go", 0⟩]⟩ : DBState).options ∧
      (postHandler true true (some "") 0 ⟨[⟨"go", 3⟩], [⟨"go", 0⟩]⟩).params.optionNames =
        none ∧
      (postHandler true true (some "") 0 ⟨[⟨"go", 3⟩], [⟨"go", 0⟩]⟩).params.optionCounts =
        none) :=
  ⟨by decide,
    empty_vote_noop true true (some "") 0 ⟨[⟨"go", 3⟩], [⟨"go", 0⟩]⟩ (by decide)⟩

/-- C6 counterexample: a `POST /` request with a missing vote payload does
signal an error condition — the response's `error` field is set to the
generic error message (because `options` stays undefined and the handler ends
with `params.error = options ? null : data.errorMessage`). -/
theorem missing_payload_error_signalled :
    (postHandler true true none 0 ⟨[⟨"go", 0⟩], []⟩).params.error =
      some (some errorMessage) := by
  rfl

/-- C6 (amended): a `POST /` request with a missing or empty vote payload is
treated as "no vote" rather than a hard error — no vote is recorded, the
state is unchanged and the normal results response is produced (no failure
flag, status flow unchanged) — but the response's `error` field does carry
the generic error message, since no option list was produced. -/
theorem missing_payload_soft (raw avail : Bool) (lang : Option String) (t : Nat)
    (s : DBState) (h : strTruthy lang = false) :
    (postHandler raw avail lang t s).state = s ∧
    (postHandler raw avail lang t s).params.results = true ∧
    (postHandler raw avail lang t s).params.failed = none ∧
    (postHandler raw avail lang t s).params.error = some (some errorMessage) := by
  unfold postHandler
  rw [if_neg (by rw [h]; exact Bool.false_ne_true)]
  cases raw <;> simp

theorem missing_payload_soft_witness :
    strTruthy none = false ∧
    ((postHandler true true none 7 ⟨[⟨"rust", 4⟩], [⟨"rust", 0⟩]⟩).state =
        ⟨[⟨"rust", 4⟩], [⟨"rust", 0⟩]⟩ ∧
      (postHandler true true none 7 ⟨[⟨"rust", 4⟩], [⟨"rust", 0⟩]⟩).params.results = true ∧
      (postHandler true true none 7 ⟨[⟨"rust", 4⟩], [⟨"rust", 0⟩]⟩).params.failed = none ∧
      (postHandler true true none 7 ⟨[⟨"rust", 4⟩], [⟨"rust", 0⟩]⟩).params.error =
        some (some errorMessage)) :=
  ⟨by decide,
    missing_payload_soft true true none 7 ⟨[⟨"rust", 4⟩], [⟨"rust", 0⟩]⟩ (by decide)⟩

/-- C7 counterexample: a `POST /` request whose `language` field is the empty
string makes no storage call at all (storage is available, `avail = true`),
yet the response's `error` field is set to the generic error message — so "no
error is reported unless a storage call returns a falsy result" is false. -/
theorem error_without_storage_failure :
    (postHandler true true (some "") 5
        ⟨[⟨"go", 2⟩], [⟨"go", 0⟩, ⟨"go", 1⟩]⟩).state =
      ⟨[⟨"go", 2⟩], [⟨"go", 0⟩, ⟨"go", 1⟩]⟩ ∧
    (postHandler true true (some "") 5
        ⟨[⟨"go", 2⟩], [⟨"go", 0⟩, ⟨"go", 1⟩]⟩).params.error =
      some (some errorMessage) := by
  exact ⟨rfl, rfl⟩

/-- C7 (amended): on `GET /`, `POST /` and `GET /logs`, whenever the storage
call made by the handler returns a falsy result the response's `error` field
is set to the single generic error message and nothing else; otherwise no
error is reported (the field is absent on `GET /` and explicitly `null` on
the other two) — except that a `POST /` with a missing or empty `language`
field also sets the generic message even though no storage call occurred. -/
theorem storage_error_reporting (raw avail : Bool) (lang : Option String)
    (t : Nat) (s : DBState) :
    ((getHandler raw avail s).params.error =
      if avail then none else some (some errorMessage)) ∧
    ((postHandler raw avail lang t s).params.error =
      if avail && strTruthy lang then some none else some (some errorMessage)) ∧
    ((logsHandler raw avail s).params.error =
      if avail then some none else some (some errorMessage)) := by
  refine ⟨?_, ?_, ?_⟩
  · unfold getHandler
    cases avail <;> cases raw <;>
      simp [dbCall, getOptions, apply_ite Params.error]
  · unfold postHandler
    cases avail <;> cases raw <;> by_cases hl : strTruthy lang <;>
      simp [hl, dbCall]
  · unfold logsHandler
    cases avail <;> cases raw <;> simp [dbCall, getLogs]

/-- C8: a `GET /` request whose storage read answers performs no mutation
(the state is returned unchanged) and projects the returned option list into
the parallel `optionNames` and `optionCounts` arrays in storage order: the
two arrays have equal length and position `i` of each comes from the same
option row. -/
theorem get_projection (raw : Bool) (s : DBState) :
    (getHandler raw true s).state = s ∧
    (getHandler raw true s).params.optionNames =
      some (s.options.map (fun choice => choice.language)) ∧
    (getHandler raw true s).params.optionCounts =
      some (s.options.map (fun choice => choice.picks)) ∧
    ((getHandler raw true s).params.optionNames.getD []).length =
      ((getHandler raw true s).params.optionCounts.getD []).length ∧
    ∀ i : Nat,
      ((getHandler raw true s).params.optionNames.getD [])[i]? =
        (s.options[i]?).map (fun choice => choice.language) ∧
      ((getHandler raw true s).params.optionCounts.getD [])[i]? =
        (s.options[i]?).map (fun choice => choice.picks) := by
  have hn : (getHandler raw true s).params.optionNames =
      some (s.options.map (fun choice => choice.language)) := by
    unfold getHandler
    cases raw <;> simp [dbCall, getOptions, apply_ite Params.optionNames]
  have hc : (getHandler raw true s).params.optionCounts =
      some (s.options.map (fun choice => choice.picks)) := by
    unfold getHandler
    cases raw <;> simp [dbCall, getOptions, apply_ite Params.optionCounts]
  refine ⟨rfl, hn, hc, ?_, ?_⟩
  · rw [hn, hc]
    simp
  · intro i
    rw [hn, hc]
    simp [List.getElem?_map]

/-- C9: serving `GET /` twice with no intervening vote or reset (the second
request runs on the state left by the first, which is unchanged) returns
identical option counts both times, whatever the `raw` flags. -/
theorem listOptions_idempotent (raw1 raw2 avail : Bool) (s : DBState) :
    (getHandler raw2 avail (getHandler raw1 avail s).state).params.optionCounts =
      (getHandler raw1 avail s).params.optionCounts ∧
    (getHandler raw1 avail s).state = s := by
  constructor
  · have hstate : (getHandler raw1 avail s).state = s := rfl
    rw [hstate]
    unfold getHandler
    cases avail <;> cases raw1 <;> cases raw2 <;>
      simp [dbCall, getOptions, apply_ite Params.optionCounts]
  · rfl

/-- C10: a `POST /reset` request that fails authorization never carries the
storage-error field — `params.error` stays absent even when the `getLogs`
read of the failure branch returns a falsy result; the generic substitution
happens only in the successful-authorization branch. -/
theorem reset_authfail_no_error_field (raw availLogs availClear : Bool)
    (bodyKey adminKey : Option String) (s : DBState)
    (h : authFails bodyKey adminKey = true) :
    (resetHandler raw availLogs availClear bodyKey adminKey s).params.error = none := by
  unfold resetHandler
  rw [if_pos h]
  cases raw <;> simp

theorem reset_authfail_no_error_field_witness :
    authFails (some "wrong") (some "secret") = true ∧
    (resetHandler true false true (some "wrong") (some "secret")
        ⟨[⟨"go", 1⟩], [⟨"go", 0⟩]⟩).params.error = none :=
  ⟨by decide,
    reset_authfail_no_error_field true false true (some "wrong") (some "secret")
      ⟨[⟨"go", 1⟩], [⟨"go", 0⟩]⟩ (by decide)⟩

end Poll
